import Mathlib

/-!
# Verification of the playwrightium command-execution core

Shallow embedding of the core of the `analysta-ai/playwrightium` repository:

* the secret interpolator (`interpolateSecrets` / `interpolateSecretsInObject`
  from the server entry point),
* the selector resolver (`getLocator` from `src/actions/browser-session.ts`),
* the continue-on-failure command runner (`browserSession.run`),
* the abort-on-failure command runner (`executeShortcut.run`),
* the persistent-session management of `runAction` (module-level
  `persistentBrowser` / `persistentContext` / `persistentPage` variables).

Machine-level conventions: JavaScript strings become `String` (worked on as
`List Char`), `undefined`-able parameters become `Option`, thrown `Error`s
become `Except String`, and the external Playwright engine becomes an oracle
function from engine calls to results.
-/

namespace Playwrightium

/-! ## Secret interpolation

Embedding of `interpolateSecrets` (string replace over the global regex
matching a dollar sign followed by a doubly braced name) and
`interpolateSecretsInObject`.  The regex engine scans left to right; at a
position where the text starts with the three characters dollar-brace-brace,
it captures the maximal run of characters other than the closing brace
(which must be nonempty) and then requires two closing braces.  On a match
the callback looks the trimmed name up in the environment and throws when it
is absent; the replacement text is emitted verbatim and scanning resumes
after the match.
-/

/-- The whitespace stripped by the JavaScript string trim used on the
captured variable name: the ECMAScript WhiteSpace productions (tab,
vertical tab, form feed, space, no-break space, zero-width no-break space
and the Unicode space separators U+1680, U+2000 to U+200A, U+202F, U+205F,
U+3000) together with the LineTerminator productions (line feed, carriage
return, line separator, paragraph separator). -/
def isWsChar (c : Char) : Bool :=
  c == ' ' || c == '\t' || c == '\n' || c == '\r' ||
  c == Char.ofNat 0x0B || c == Char.ofNat 0x0C ||
  c == Char.ofNat 0xA0 || c == Char.ofNat 0x1680 ||
  (decide (0x2000 ≤ c.toNat) && decide (c.toNat ≤ 0x200A)) ||
  c == Char.ofNat 0x2028 || c == Char.ofNat 0x2029 ||
  c == Char.ofNat 0x202F || c == Char.ofNat 0x205F ||
  c == Char.ofNat 0x3000 || c == Char.ofNat 0xFEFF

/-- Trim at the character-list level: the embedding of the trim applied to
the captured placeholder name. -/
def trimChars (l : List Char) : List Char :=
  ((l.dropWhile isWsChar).reverse.dropWhile isWsChar).reverse

/-- String form of `trimChars`. -/
def jsTrim (s : String) : String := String.mk (trimChars s.data)

/-- The store of secret variables (the process environment): an ordered
name-to-value mapping, read-only from the interpolation pass. -/
abbrev VarStore := List (String × String)

/-- The error message thrown by `interpolateSecrets` for an undefined
name, with the exact source wording. -/
def errMsg (name : String) : String :=
  "Environment variable \"" ++ name ++ "\" is not defined. " ++
    "Make sure it\x27s set in .env file at repository root"

/-- Try to read one placeholder match at the current scan position: the text
must start with a dollar sign and two opening braces, followed by a nonempty
run of characters other than a closing brace, followed by two closing
braces.  Returns the captured (untrimmed) name and the rest of the input
after the match. -/
def tryPlaceholder (l : List Char) : Option (List Char × List Char) :=
  match l with
  | a :: b :: c :: rest =>
    if a = '$' ∧ b = '{' ∧ c = '{' then
      let inner := rest.takeWhile (fun x => x ≠ '}')
      match rest.dropWhile (fun x => x ≠ '}') with
      | x :: y :: rest2 =>
        if x = '}' ∧ y = '}' ∧ inner ≠ [] then some (inner, rest2) else none
      | _ => none
    else none
  | _ => none

theorem dropWhile_len_le (p : Char → Bool) :
    ∀ l : List Char, (l.dropWhile p).length ≤ l.length := by
  intro l
  induction l with
  | nil => simp
  | cons c cs ih =>
    simp only [List.dropWhile]
    split
    · simp only [List.length_cons]; omega
    · simp

theorem tryPlaceholder_consumes {l inner rest : List Char}
    (h : tryPlaceholder l = some (inner, rest)) : rest.length + 1 ≤ l.length := by
  unfold tryPlaceholder at h
  match l with
  | [] => simp at h
  | [a] => simp at h
  | [a, b] => simp at h
  | a :: b :: c :: tail =>
    simp only at h
    split at h
    · rename_i habc
      have hdw : (tail.dropWhile (fun x => x ≠ '}')).length ≤ tail.length :=
        dropWhile_len_le _ tail
      split at h
      · rename_i x y rest2 heq
        split at h
        · injection h with h'
          injection h' with h1 h2
          subst h2
          have : rest2.length + 2 ≤ tail.length := by
            rw [heq] at hdw; simpa using hdw
          simp only [List.length_cons]; omega
        · exact absurd h (by simp)
      · exact absurd h (by simp)
    · exact absurd h (by simp)

theorem tryPlaceholder_of_ne {c : Char} (cs : List Char) (h : c ≠ '$') :
    tryPlaceholder (c :: cs) = none := by
  unfold tryPlaceholder
  match cs with
  | [] => rfl
  | [a] => rfl
  | a :: b :: tail =>
    simp only
    rw [if_neg]
    rintro ⟨h1, -⟩
    exact h h1

/-- Fuel-indexed scanner for the global replace: at each position, either a
placeholder matches (the variable is resolved or the scan fails with the
missing-variable error) or one character is copied to the output.  The fuel
is an upper bound on the number of positions still to visit; the wrapper
`scanChars` supplies the input length. -/
def scanFuel (env : VarStore) : Nat → List Char → Except String (List Char)
  | _, [] => .ok []
  | 0, _ :: _ => .ok []
  | fuel + 1, c :: cs =>
    match tryPlaceholder (c :: cs) with
    | some (inner, rest) =>
      match List.lookup (jsTrim (String.mk inner)) env with
      | some v => (fun t => v.data ++ t) <$> scanFuel env fuel rest
      | none => .error (errMsg (jsTrim (String.mk inner)))
    | none => (fun t => c :: t) <$> scanFuel env fuel cs

/-- The character-level interpolation scan. -/
def scanChars (env : VarStore) (l : List Char) : Except String (List Char) :=
  scanFuel env l.length l

/-- Embedding of `interpolateSecrets`: replace every placeholder occurrence
in the string, throwing (modelled as `Except.error`) when a referenced name
has no entry in the store. -/
def interpolateSecrets (env : VarStore) (s : String) : Except String String :=
  (fun l => String.mk l) <$> scanChars env s.data

/-- Fuel only needs to dominate the input length: below that bound the
scanner never consults it. -/
theorem scanFuel_fuel_irrel (env : VarStore) :
    ∀ f g l, l.length ≤ f → l.length ≤ g → scanFuel env f l = scanFuel env g l := by
  intro f
  induction f using Nat.strong_induction_on with
  | _ f ih =>
    intro g l hf hg
    match l with
    | [] => cases f <;> cases g <;> rfl
    | c :: cs =>
      match f, g with
      | f + 1, g + 1 =>
        simp only [List.length_cons] at hf hg
        cases htp : tryPlaceholder (c :: cs) with
        | some pr =>
          obtain ⟨inner, rest⟩ := pr
          have hcons := tryPlaceholder_consumes htp
          simp only [List.length_cons] at hcons
          simp only [scanFuel, htp]
          rw [ih f (by omega) g rest (by omega) (by omega)]
        | none =>
          simp only [scanFuel, htp]
          rw [ih f (by omega) g cs (by omega) (by omega)]

theorem scanChars_nil (env : VarStore) : scanChars env [] = .ok [] := rfl

/-- Unfolding of the scan at a position where a placeholder matches. -/
theorem scanChars_match {l inner rest : List Char} (env : VarStore)
    (h : tryPlaceholder l = some (inner, rest)) :
    scanChars env l =
      match List.lookup (jsTrim (String.mk inner)) env with
      | some v => (fun t => v.data ++ t) <$> scanChars env rest
      | none => .error (errMsg (jsTrim (String.mk inner))) := by
  have hcons := tryPlaceholder_consumes h
  match l with
  | [] => simp [tryPlaceholder] at h
  | c :: cs =>
    unfold scanChars
    simp only [List.length_cons, scanFuel, h]
    have hr : rest.length ≤ cs.length := by
      simp only [List.length_cons] at hcons; omega
    rw [scanFuel_fuel_irrel env cs.length rest.length rest hr le_rfl]

/-- Unfolding of the scan at a position where no placeholder matches: the
head character is copied. -/
theorem scanChars_copy {c : Char} {cs : List Char} (env : VarStore)
    (h : tryPlaceholder (c :: cs) = none) :
    scanChars env (c :: cs) = (fun t => c :: t) <$> scanChars env cs := by
  unfold scanChars
  simp only [List.length_cons, scanFuel, h]

/-! ### JSON-like values

The action input is an arbitrary JSON-like value (the tool arguments).  The
recursive walk `interpolateSecretsInObject` treats strings, arrays and plain
objects specially and passes every other value through unchanged.  Mutual
inductives are used instead of nested `List` fields so that all recursions
stay structural (and hence kernel-computable). -/

mutual
inductive Value where
  | str (s : String)
  | num (n : Int)
  | bool (b : Bool)
  | null
  | arr (xs : ValueList)
  | obj (fs : FieldList)

inductive ValueList where
  | nil
  | cons (v : Value) (rest : ValueList)

inductive FieldList where
  | nil
  | cons (k : String) (v : Value) (rest : FieldList)
end

mutual
/-- Embedding of `interpolateSecretsInObject`: strings are interpolated,
arrays are mapped elementwise, objects are rebuilt key by key, and all other
values are returned unchanged. -/
def interpolateSecretsInObject (env : VarStore) : Value → Except String Value
  | .str s => (fun t => Value.str t) <$> interpolateSecrets env s
  | .num n => .ok (.num n)
  | .bool b => .ok (.bool b)
  | .null => .ok .null
  | .arr xs => (fun ys => Value.arr ys) <$> interpArr env xs
  | .obj fs => (fun gs => Value.obj gs) <$> interpFields env fs

/-- Elementwise interpolation of an array (`obj.map(interpolateSecretsInObject)`). -/
def interpArr (env : VarStore) : ValueList → Except String ValueList
  | .nil => .ok .nil
  | .cons v rest => do
    let v' ← interpolateSecretsInObject env v
    let rest' ← interpArr env rest
    .ok (.cons v' rest')

/-- Key-by-key interpolation of an object (`for key in obj`). -/
def interpFields (env : VarStore) : FieldList → Except String FieldList
  | .nil => .ok .nil
  | .cons k v rest => do
    let v' ← interpolateSecretsInObject env v
    let rest' ← interpFields env rest
    .ok (.cons k v' rest')
end

/-! ## Selector resolver

Embedding of `getLocator` from `src/actions/browser-session.ts`.  The JS
string tests are modelled at the character-list level: the structural test
is the regex matching a leading dot, hash or opening bracket, or a
contained combinator character; the role test is the anchored regex
`role:` followed by word characters and an optional bracketed name. -/

/-- The addressing strategy returned by the resolver. -/
inductive Strategy where
  | css (s : String)
  | role (r : String) (name : Option String)
  | testId (s : String)
  | placeholder (s : String)
  | label (s : String)
  | text (s : String)
deriving DecidableEq

/-- JS `String.prototype.startsWith`, at the character-list level. -/
def jsStartsWith (s p : String) : Bool := p.data.isPrefixOf s.data

/-- Dropping a leading prefix of known length (the embedding of
`replace(prefixText, '')` under a `startsWith` guard: replacing the first
occurrence of the leading prefix is dropping it). -/
def jsDrop (s : String) (n : Nat) : String := String.mk (s.data.drop n)

/-- JS regex word character (`\w`): ASCII letters, digits, underscore. -/
def isWordChar (c : Char) : Bool := c.isAlpha || c.isDigit || c == '_'

/-- Characters matched by `.` in a JS regex without the dot-all flag:
everything except line terminators. -/
def jsDotChar (c : Char) : Bool :=
  !(c == '\n' || c == '\r' || c == Char.ofNat 0x2028 || c == Char.ofNat 0x2029)

/-- Embedding of `selector.match(/^role:(\w+)(?:\[(.+)\])?$/)`: the string
must start with `role:`, continue with a nonempty maximal run of word
characters, and then either end or end with a bracketed nonempty name
containing no line terminator (the greedy capture runs to the final
closing bracket, which must be the last character). -/
def roleMatch (s : String) : Option (String × Option String) :=
  if jsStartsWith s "role:" then
    let rest := s.data.drop 5
    let w := rest.takeWhile isWordChar
    let rem := rest.dropWhile isWordChar
    if w = [] then none
    else
      match rem with
      | [] => some (String.mk w, none)
      | c :: tail =>
        if c = '[' ∧ tail.getLast? = some ']' ∧ tail.dropLast ≠ [] ∧
            tail.dropLast.all jsDotChar then
          some (String.mk w, some (String.mk tail.dropLast))
        else none
  else none

/-- Embedding of `getLocator`: the ordered strategy match.  Rule 1 is the
structural test (leading `.`/`#`/`[` or contained `>`/`+`), rule 2 the role
regex, rules 3 to 5 the `testid:`/`placeholder:`/`label:` prefixes, and the
fallback is a literal text lookup. -/
def getLocator (s : String) : Strategy :=
  if (match s.data.head? with
      | some c => c == '.' || c == '#' || c == '['
      | none => false) || s.data.contains '>' || s.data.contains '+' then
    Strategy.css s
  else
    match roleMatch s with
    | some (r, n) => Strategy.role r n
    | none =>
      if jsStartsWith s "testid:" then Strategy.testId (jsDrop s 7)
      else if jsStartsWith s "placeholder:" then Strategy.placeholder (jsDrop s 12)
      else if jsStartsWith s "label:" then Strategy.label (jsDrop s 6)
      else Strategy.text s

/-! ## Commands and the engine oracle

A command is the tagged record consumed by both runners; absent JS fields
are `none`.  The Playwright engine is an oracle mapping each engine call to
either a thrown error or a returned value (`none` models `undefined`/`null`
returns). -/

structure Cmd where
  type : String
  description : Option String := none
  selector : Option String := none
  url : Option String := none
  value : Option String := none
  key : Option String := none
  text : Option String := none
  script : Option String := none
  attr : Option String := none
  targetSelector : Option String := none
  path : Option String := none
  files : Option (List String) := none
  button : Option String := none
  clickCount : Option Nat := none
  timeout : Option Nat := none
  fullPage : Option Bool := none
  x : Option Int := none
  y : Option Int := none
  waitUntil : Option String := none
  delay : Option Nat := none
  duration : Option Nat := none
deriving DecidableEq

/-- JS truthiness of a possibly absent string (the empty string is falsy). -/
def truthy : Option String → Bool
  | none => false
  | some s => !(s == "")

/-- JS truthiness of a possibly absent number (zero is falsy). -/
def truthyNat : Option Nat → Bool
  | none => false
  | some n => !(n == 0)

/-- The engine calls issued by the two dispatchers.  Calls suffixed `Raw`
are the direct uses by the shortcut runner of possibly-undefined parameters. -/
inductive EngineCall where
  | goto (url : Option String)
  | gotoWait (url : Option String) (waitUntil : String)
  | waitForLoadState
  | goBack
  | click (strat : Strategy) (button : Option String) (clickCount : Option Nat)
  | clickRaw (selector : Option String)
  | pressSequentially (strat : Strategy) (value : String) (delay : Nat)
  | typeRaw (selector value : Option String) (delay : Nat)
  | fill (strat : Strategy) (value : String)
  | fillRaw (selector value : Option String)
  | keyboardPress (key : Option String)
  | hover (strat : Strategy)
  | selectOption (selector value : String)
  | dragAndDrop (src tgt : String)
  | getByTextWaitFor (text : String) (timeout : Option Nat)
  | waitForTimeout (ms : Nat)
  | waitTimeoutRaw (ms : Option Nat)
  | waitForSelector (selector : Option String) (timeout : Option Nat)
  | waitTextRaw (text : Option String) (timeout : Option Nat)
  | screenshotCall (path : String) (fullPage : Option Bool)
  | evaluate (script : String)
  | textContent (strat : Strategy)
  | textContentRaw (selector : Option String)
  | getAttribute (strat : Strategy) (attr : String)
  | check (strat : Strategy)
  | uncheck (strat : Strategy)
  | setInputFiles (selector : String) (files : List String)
  | clear (strat : Strategy)
  | scrollTo (x y : Int)
  | reload
  | pageTitle
deriving DecidableEq

/-- The browser engine oracle: `call` models every awaited page operation
(`Except.error` is a thrown engine exception, the `Option String` result a
possibly null return value); `url` models the synchronous `page.url()`;
`now` models the clock read used for default screenshot names. -/
structure Engine where
  call : EngineCall → Except String (Option String)
  url : String
  now : Nat

/-- Issue one engine call and build the success payload from its value. -/
def call1 {α : Type} (eng : Engine) (c : EngineCall) (p : Option String → α) :
    Except String α × List EngineCall :=
  match eng.call c with
  | .error e => (.error e, [c])
  | .ok v => (.ok (p v), [c])

/-- Issue two engine calls in order (stopping at the first thrown error)
and build the success payload from the second value. -/
def call2 {α : Type} (eng : Engine) (c1 c2 : EngineCall) (p : Option String → α) :
    Except String α × List EngineCall :=
  match eng.call c1 with
  | .error e => (.error e, [c1])
  | .ok _ =>
    match eng.call c2 with
    | .error e => (.error e, [c1, c2])
    | .ok v => (.ok (p v), [c1, c2])

/-! ## The continue-on-failure dispatcher and runner (`browserSession.run`) -/

/-- The per-step success payload recorded by `browserSession.run` (the
`result` object built in each `case`). -/
inductive Payload where
  | url (s : String)
  | clicked (s : String)
  | typed (s : String)
  | filled (s : String)
  | pressed (s : String)
  | hovered (s : String)
  | selected (s : String)
  | dragged (s : String)
  | found (s : String)
  | waited (s : String)
  | screenshot (s : String)
  | evalResult (v : Option String)
  | text (t : Option String)
  | attr (name : String) (v : Option String)
  | checked (s : String)
  | unchecked (s : String)
  | uploaded (s : String)
  | cleared (s : String)
  | scrolled (x y : Option Int)
  | reloaded (s : String)
  | title (s : String)
deriving DecidableEq

/-- One step of the `browserSession.run` switch: the `try` block of the
loop body, returning the step outcome (the `result` value, `none` when no
case assigned it) together with the engine calls actually issued. -/
def dispatch (eng : Engine) (cmd : Cmd) :
    Except String (Option Payload) × List EngineCall :=
  match cmd.type with
  | "navigate" =>
    call2 eng (.goto cmd.url) .waitForLoadState (fun _ => some (.url eng.url))
  | "navigate_back" =>
    call2 eng .goBack .waitForLoadState (fun _ => some (.url eng.url))
  | "click" =>
    if truthy cmd.selector then
      call1 eng (.click (getLocator (cmd.selector.getD "")) cmd.button cmd.clickCount)
        (fun _ => some (.clicked (cmd.selector.getD "")))
    else (.ok none, [])
  | "type" =>
    if truthy cmd.selector ∧ truthy cmd.value then
      call1 eng
        (.pressSequentially (getLocator (cmd.selector.getD "")) (cmd.value.getD "") 50)
        (fun _ => some (.typed (toString (cmd.value.getD "").length ++ " characters")))
    else (.ok none, [])
  | "fill" =>
    if truthy cmd.selector ∧ cmd.value ≠ none then
      call1 eng (.fill (getLocator (cmd.selector.getD "")) (cmd.value.getD ""))
        (fun _ => some (.filled (cmd.selector.getD "")))
    else (.ok none, [])
  | "press_key" =>
    if truthy cmd.key then
      call1 eng (.keyboardPress cmd.key) (fun _ => some (.pressed (cmd.key.getD "")))
    else (.ok none, [])
  | "hover" =>
    if truthy cmd.selector then
      call1 eng (.hover (getLocator (cmd.selector.getD "")))
        (fun _ => some (.hovered (cmd.selector.getD "")))
    else (.ok none, [])
  | "select_option" =>
    if truthy cmd.selector ∧ truthy cmd.value then
      call1 eng (.selectOption (cmd.selector.getD "") (cmd.value.getD ""))
        (fun _ => some (.selected (cmd.value.getD "")))
    else (.ok none, [])
  | "drag" =>
    if truthy cmd.selector ∧ truthy cmd.targetSelector then
      call1 eng (.dragAndDrop (cmd.selector.getD "") (cmd.targetSelector.getD ""))
        (fun _ => some (.dragged ((cmd.selector.getD "") ++ " to " ++ (cmd.targetSelector.getD ""))))
    else (.ok none, [])
  | "wait_for_text" =>
    if truthy cmd.text then
      call1 eng (.getByTextWaitFor (cmd.text.getD "") cmd.timeout)
        (fun _ => some (.found (cmd.text.getD "")))
    else (.ok none, [])
  | "wait_for_timeout" =>
    call1 eng (.waitForTimeout (if truthyNat cmd.timeout then cmd.timeout.getD 0 else 1000))
      (fun _ => some (.waited (if truthyNat cmd.timeout
        then toString (cmd.timeout.getD 0) else "1000ms")))
  | "wait_for_selector" =>
    if truthy cmd.selector then
      call1 eng (.waitForSelector cmd.selector cmd.timeout)
        (fun _ => some (.found (cmd.selector.getD "")))
    else (.ok none, [])
  | "screenshot" =>
    let p := if truthy cmd.path then cmd.path.getD ""
      else ".playwright-mcp/screenshot-" ++ toString eng.now ++ ".png"
    call1 eng (.screenshotCall p cmd.fullPage) (fun _ => some (.screenshot p))
  | "evaluate" =>
    if truthy cmd.script then
      call1 eng (.evaluate (cmd.script.getD "")) (fun v => some (.evalResult v))
    else (.ok none, [])
  | "get_text" =>
    if truthy cmd.selector then
      call1 eng (.textContent (getLocator (cmd.selector.getD "")))
        (fun v => some (.text v))
    else (.ok none, [])
  | "get_attribute" =>
    if truthy cmd.selector ∧ truthy cmd.attr then
      call1 eng (.getAttribute (getLocator (cmd.selector.getD "")) (cmd.attr.getD ""))
        (fun v => some (.attr (cmd.attr.getD "") v))
    else (.ok none, [])
  | "check" =>
    if truthy cmd.selector then
      call1 eng (.check (getLocator (cmd.selector.getD "")))
        (fun _ => some (.checked (cmd.selector.getD "")))
    else (.ok none, [])
  | "uncheck" =>
    if truthy cmd.selector then
      call1 eng (.uncheck (getLocator (cmd.selector.getD "")))
        (fun _ => some (.unchecked (cmd.selector.getD "")))
    else (.ok none, [])
  | "upload_file" =>
    if truthy cmd.selector ∧ cmd.files ≠ none then
      call1 eng (.setInputFiles (cmd.selector.getD "") (cmd.files.getD []))
        (fun _ => some (.uploaded (toString (cmd.files.getD []).length ++ " file(s)")))
    else (.ok none, [])
  | "clear" =>
    if truthy cmd.selector then
      call1 eng (.clear (getLocator (cmd.selector.getD "")))
        (fun _ => some (.cleared (cmd.selector.getD "")))
    else (.ok none, [])
  | "scroll" =>
    call1 eng (.scrollTo (cmd.x.getD 0) (cmd.y.getD 0))
      (fun _ => some (.scrolled cmd.x cmd.y))
  | "reload" =>
    call2 eng .reload .waitForLoadState (fun _ => some (.reloaded eng.url))
  | "get_url" => (.ok (some (.url eng.url)), [])
  | "get_title" =>
    call1 eng .pageTitle (fun v => some (.title (v.getD "")))
  | _ => (.ok none, [])

/-- One entry of the result log pushed by `browserSession.run`. -/
structure StepOutcome where
  step : Nat
  type : String
  success : Bool
  result : Option Payload := none
  error : Option String := none
deriving DecidableEq

/-- Build the pushed entry from the step number, command type and the
dispatched outcome (the `results.push` in the `try` and `catch` arms). -/
def mkOutcome (n : Nat) (t : String) : Except String (Option Payload) → StepOutcome
  | .ok r => ⟨n, t, true, r, none⟩
  | .error e => ⟨n, t, false, none, some e⟩

def browserSessionRunFrom (eng : Engine) : Nat → List Cmd → List StepOutcome
  | _, [] => []
  | n, c :: rest =>
    mkOutcome n c.type (dispatch eng c).1 :: browserSessionRunFrom eng (n + 1) rest

/-- Embedding of the `browserSession.run` loop: every command is dispatched
in order; successes and failures are both recorded and iteration always
proceeds to the next command (the `catch` arm only records the error). -/
def browserSessionRun (eng : Engine) (cmds : List Cmd) : List StepOutcome :=
  browserSessionRunFrom eng 1 cmds

/-! ## The abort-on-failure dispatcher and runner (`executeShortcut.run`) -/

/-- The per-step success payload of the shortcut runner (its cases use the
raw, possibly-undefined command parameters). -/
inductive ShortPayload where
  | url (s : String)
  | clicked (s : Option String)
  | filled (s : Option String)
  | typed (s : Option String)
  | pressed (s : Option String)
  | found (s : Option String)
  | waited (s : String)
  | screenshot (s : String)
  | text (t : Option String)
  | title (s : String)
deriving DecidableEq

/-- One step of the `executeShortcut.run` switch.  No case checks its
parameters; an unknown command type throws the distinguished
`Unknown command type` error before any engine call. -/
def dispatchShortcut (eng : Engine) (cmd : Cmd) :
    Except String ShortPayload × List EngineCall :=
  match cmd.type with
  | "navigate" =>
    call1 eng (.gotoWait cmd.url (if truthy cmd.waitUntil then cmd.waitUntil.getD "" else "load"))
      (fun _ => ShortPayload.url eng.url)
  | "click" =>
    call1 eng (.clickRaw cmd.selector) (fun _ => ShortPayload.clicked cmd.selector)
  | "fill" =>
    call1 eng (.fillRaw cmd.selector cmd.value) (fun _ => ShortPayload.filled cmd.selector)
  | "type" =>
    call1 eng (.typeRaw cmd.selector cmd.value
        (if truthyNat cmd.delay then cmd.delay.getD 0 else 100))
      (fun _ => ShortPayload.typed cmd.selector)
  | "press_key" =>
    call1 eng (.keyboardPress cmd.key) (fun _ => ShortPayload.pressed cmd.key)
  | "wait_for_selector" =>
    call1 eng (.waitForSelector cmd.selector cmd.timeout)
      (fun _ => ShortPayload.found cmd.selector)
  | "wait_for_text" =>
    call1 eng (.waitTextRaw cmd.text cmd.timeout) (fun _ => ShortPayload.found cmd.text)
  | "wait_for_timeout" =>
    call1 eng (.waitTimeoutRaw cmd.duration)
      (fun _ => ShortPayload.waited
        ((match cmd.duration with | some d => toString d | none => "undefined") ++ "ms"))
  | "screenshot" =>
    let p := if truthy cmd.path then cmd.path.getD ""
      else "screenshot-" ++ toString eng.now ++ ".png"
    call1 eng (.screenshotCall p cmd.fullPage) (fun _ => ShortPayload.screenshot p)
  | "get_text" =>
    call1 eng (.textContentRaw cmd.selector) (fun v => ShortPayload.text v)
  | "get_url" => (.ok (ShortPayload.url eng.url), [])
  | "get_title" => call1 eng .pageTitle (fun v => ShortPayload.title (v.getD ""))
  | _ => (.error ("Unknown command type: " ++ cmd.type), [])

/-- One entry of the result list of the shortcut runner. -/
structure ShortStep where
  step : Nat
  command : String
  payload : ShortPayload
deriving DecidableEq

def executeShortcutRunFrom (eng : Engine) : Nat → List Cmd → Except String (List ShortStep)
  | _, [] => .ok []
  | n, c :: rest =>
    match (dispatchShortcut eng c).1 with
    | .error e => .error e
    | .ok p =>
      match executeShortcutRunFrom eng (n + 1) rest with
      | .error e => .error e
      | .ok l => .ok (⟨n, c.type, p⟩ :: l)

/-- Embedding of the `executeShortcut.run` loop: steps are dispatched in
order, successful steps are accumulated, and the first failing step rethrows
its error, so the whole run rejects and no result list is returned. -/
def executeShortcutRun (eng : Engine) (cmds : List Cmd) : Except String (List ShortStep) :=
  executeShortcutRunFrom eng 1 cmds

/-! ## The persistent session and `runAction`

Embedding of the module-level `persistentBrowser` / `persistentContext` /
`persistentPage` variables of the server entry point and of the `runAction`
control flow around one action invocation.  Engine handles are modelled as
numeric identifiers; a launch consumes three fresh identifiers. -/

/-- The browser/context/page handle triple of one live session. -/
structure Session where
  browser : Nat
  context : Nat
  page : Nat
deriving DecidableEq

/-- The process-wide persistent references (`null` is `none`). -/
structure SessState where
  persistentBrowser : Option Nat := none
  persistentContext : Option Nat := none
  persistentPage : Option Nat := none
deriving DecidableEq

/-- All three persistent references are set. -/
def sessionFull (st : SessState) : Bool :=
  st.persistentBrowser.isSome && st.persistentContext.isSome && st.persistentPage.isSome

/-- The acquisition step of `runAction`: reuse the persistent triple when
all three references are set, otherwise launch (`launched = true`), storing
three fresh handles. -/
structure AcquireOut where
  session : Session
  state : SessState
  launched : Bool
deriving DecidableEq

def acquireSession (st : SessState) (fresh : Nat) : AcquireOut :=
  match st.persistentBrowser, st.persistentContext, st.persistentPage with
  | some b, some c, some p => ⟨⟨b, c, p⟩, st, false⟩
  | _, _, _ =>
    ⟨⟨fresh, fresh + 1, fresh + 2⟩,
     ⟨some fresh, some (fresh + 1), some (fresh + 2)⟩, true⟩

/-- Embedding of the `runAction` control flow: acquire or launch the
session, interpolate secrets into the arguments, call the `run` of the action
(abstracted as `runEff`, which sees the session, the interpolated input and
the page trace), clear the persistent references only after a successful
run of the action named `close-browser`, and turn any thrown error into an
error result without touching the persistent references.  The page trace
models the observable effect history of the page. -/
def runAction (env : VarStore) (st : SessState) (actName : String) (fresh : Nat)
    (args : Value)
    (runEff : Session → Value → List String → Except String Unit × List String)
    (tr : List String) : Except String Unit × SessState × List String :=
  let acq := acquireSession st fresh
  match interpolateSecretsInObject env args with
  | .error e => (.error e, acq.state, tr)
  | .ok a =>
    match runEff acq.session a tr with
    | (.error e, tr2) => (.error e, acq.state, tr2)
    | (.ok _, tr2) =>
      if actName = "close-browser" then (.ok (), ⟨none, none, none⟩, tr2)
      else (.ok (), acq.state, tr2)

/-! ## Spec-side comparator for structural identity (claim C7) -/

mutual
/-- Spec-side structural identity: same constructor everywhere, equal
non-string leaves, equal array lengths and orders, equal object key lists
(string leaves may differ). -/
def sameStructure : Value → Value → Bool
  | .str _, .str _ => true
  | .num n, .num m => n == m
  | .bool a, .bool b => a == b
  | .null, .null => true
  | .arr xs, .arr ys => sameStructureArr xs ys
  | .obj fs, .obj gs => sameStructureFields fs gs
  | _, _ => false

def sameStructureArr : ValueList → ValueList → Bool
  | .nil, .nil => true
  | .cons v vs, .cons w ws => sameStructure v w && sameStructureArr vs ws
  | _, _ => false

def sameStructureFields : FieldList → FieldList → Bool
  | .nil, .nil => true
  | .cons k v vs, .cons k2 w ws => k == k2 && sameStructure v w && sameStructureFields vs ws
  | _, _ => false
end

/-! ## Shared demonstration inputs for concrete witnesses -/

/-- An engine on which every awaited call throws. -/
def demoEngineFail : Engine := ⟨fun _ => .error "boom", "https://a.test", 0⟩

/-- An engine on which every awaited call succeeds with no value. -/
def demoEngineOk : Engine := ⟨fun _ => .ok none, "https://a.test", 0⟩

/-- An engine that throws exactly on raw click calls (the shortcut runner's
click): commands before a click succeed, the click step fails. -/
def demoEngineClickFails : Engine :=
  ⟨fun c =>
    match c with
    | .clickRaw _ => .error "not found"
    | _ => .ok none, "https://a.test", 0⟩

def demoNav : Cmd := { type := "navigate", url := some "https://a.test" }

def demoClick : Cmd := { type := "click", selector := some "#go" }

def demoBogus : Cmd := { type := "frobnicate" }

/-! ## Theorems: session manager -/

theorem acquireSession_full (st : SessState) (fresh : Nat) :
    sessionFull (acquireSession st fresh).state = true := by
  obtain ⟨ob, oc, op⟩ := st
  cases ob <;> cases oc <;> cases op <;> rfl

theorem acquireSession_of_full (st : SessState) (fresh : Nat)
    (h : sessionFull st = true) :
    (acquireSession st fresh).state = st ∧ (acquireSession st fresh).launched = false := by
  obtain ⟨ob, oc, op⟩ := st
  cases ob <;> cases oc <;> cases op <;> simp_all [sessionFull, acquireSession]

/-- C5: at most one session exists and acquisition is pure reuse: after any
acquisition the persistent references are fully set; a second acquisition
with no intervening release returns the identical triple, leaves the state
unchanged and launches nothing; and acquiring over an existing session
returns the stored handles of that session without modifying the state. -/
theorem session_single_reuse (st : SessState) (f1 f2 : Nat) :
    sessionFull (acquireSession st f1).state = true ∧
    (acquireSession (acquireSession st f1).state f2).session = (acquireSession st f1).session ∧
    (acquireSession (acquireSession st f1).state f2).state = (acquireSession st f1).state ∧
    (acquireSession (acquireSession st f1).state f2).launched = false ∧
    (∀ b c p, st = ⟨some b, some c, some p⟩ →
      acquireSession st f1 = ⟨⟨b, c, p⟩, st, false⟩) := by
  obtain ⟨ob, oc, op⟩ := st
  refine ⟨acquireSession_full _ _, ?_, ?_, ?_, ?_⟩ <;>
    cases ob <;> cases oc <;> cases op <;>
      simp_all [acquireSession, sessionFull]

/-- Witness for C5 at a concrete state: an unallocated state, acquired
twice, yields the same session both times with no second launch, and an
already-full state is reused as is. -/
theorem session_single_reuse_witness :
    sessionFull (acquireSession ⟨none, none, none⟩ 0).state = true ∧
    (acquireSession (acquireSession ⟨none, none, none⟩ 0).state 7).session
      = (acquireSession ⟨none, none, none⟩ 0).session ∧
    (acquireSession (acquireSession ⟨none, none, none⟩ 0).state 7).launched = false ∧
    acquireSession ⟨some 4, some 5, some 6⟩ 9 = ⟨⟨4, 5, 6⟩, ⟨some 4, some 5, some 6⟩, false⟩ := by
  have h1 := session_single_reuse ⟨none, none, none⟩ 0 7
  have h2 := session_single_reuse ⟨some 4, some 5, some 6⟩ 9 0
  exact ⟨h1.1, h1.2.1, h1.2.2.2.1, h2.2.2.2.2 4 5 6 rfl⟩

/-- C10 counterexample: running an action that is not `close-browser` from
the unallocated state does change the persistent references (it lazily
launches and stores a session), so the claim that every non-close action
leaves the references unchanged is false as stated. -/
theorem session_frame_counterexample :
    ((runAction [] ⟨none, none, none⟩ "browser-session" 0 .null
        (fun _ _ tr => (.ok (), tr)) []).2.1 = ⟨some 0, some 1, some 2⟩) ∧
    (runAction [] ⟨none, none, none⟩ "browser-session" 0 .null
        (fun _ _ tr => (.ok (), tr)) []).2.1 ≠ (⟨none, none, none⟩ : SessState) ∧
    "browser-session" ≠ "close-browser" := by
  refine ⟨rfl, ?_, by decide⟩
  intro h
  rw [show (runAction [] ⟨none, none, none⟩ "browser-session" 0 .null
      (fun _ _ tr => (.ok (), tr)) []).2.1 = ⟨some 0, some 1, some 2⟩ from rfl] at h
  exact absurd h (by decide)

/-- C10 amended: when a session already exists, any action whose name is
not `close-browser` leaves the persistent references unchanged (even when
the run of the action throws, in which case an error result is returned with the
references retained); a non-close action never leaves the references
unallocated (from the empty state it lazily creates and stores a session);
and only a successful `close-browser` resets all three references to
`none`. -/
theorem session_frame (env : VarStore) (st : SessState) (actName : String)
    (fresh : Nat) (args : Value)
    (runEff : Session → Value → List String → Except String Unit × List String)
    (tr : List String) :
    (actName ≠ "close-browser" → sessionFull st = true →
      (runAction env st actName fresh args runEff tr).2.1 = st) ∧
    (actName ≠ "close-browser" →
      sessionFull (runAction env st actName fresh args runEff tr).2.1 = true) ∧
    (∀ a e tr2, interpolateSecretsInObject env args = .ok a →
      runEff (acquireSession st fresh).session a tr = (.error e, tr2) →
      runAction env st actName fresh args runEff tr
        = (.error e, (acquireSession st fresh).state, tr2)) ∧
    (∀ a tr2, actName = "close-browser" →
      interpolateSecretsInObject env args = .ok a →
      runEff (acquireSession st fresh).session a tr = (.ok (), tr2) →
      (runAction env st actName fresh args runEff tr).2.1 = ⟨none, none, none⟩) := by
  refine ⟨?_, ?_, ?_, ?_⟩
  · intro hname hfull
    unfold runAction
    rcases hinterp : interpolateSecretsInObject env args with e | a
    · simpa using (acquireSession_of_full st fresh hfull).1
    · rcases heff : runEff (acquireSession st fresh).session a tr with ⟨res, tr2⟩
      rcases res with e | u
      · simpa [heff] using (acquireSession_of_full st fresh hfull).1
      · simp only [heff, if_neg hname]
        simpa using (acquireSession_of_full st fresh hfull).1
  · intro hname
    unfold runAction
    rcases hinterp : interpolateSecretsInObject env args with e | a
    · simpa using acquireSession_full st fresh
    · rcases heff : runEff (acquireSession st fresh).session a tr with ⟨res, tr2⟩
      rcases res with e | u
      · simpa [heff] using acquireSession_full st fresh
      · simp only [heff, if_neg hname]
        simpa using acquireSession_full st fresh
  · intro a e tr2 hinterp heff
    unfold runAction
    simp only [hinterp, heff]
  · intro a tr2 hname hinterp heff
    unfold runAction
    simp only [hinterp, heff, if_pos hname]

/-- Witness for the amended C10: a non-close action over an existing
session whose run throws keeps the references; closing succeeds and clears
them. -/
theorem session_frame_witness :
    (runAction [] ⟨some 4, some 5, some 6⟩ "browser-session" 9 .null
        (fun _ _ tr => (.error "page crashed", tr)) []).2.1
      = (⟨some 4, some 5, some 6⟩ : SessState) ∧
    (runAction [] ⟨some 4, some 5, some 6⟩ "close-browser" 9 .null
        (fun _ _ tr => (.ok (), tr)) []).2.1 = (⟨none, none, none⟩ : SessState) := by
  have h1 := session_frame [] ⟨some 4, some 5, some 6⟩ "browser-session" 9 .null
    (fun _ _ tr => (.error "page crashed", tr)) []
  have h2 := session_frame [] ⟨some 4, some 5, some 6⟩ "close-browser" 9 .null
    (fun _ _ tr => (.ok (), tr)) []
  exact ⟨h1.1 (by decide) rfl, h2.2.2.2 .null [] rfl rfl rfl⟩

/-! ## Theorems: the continue-on-failure runner -/

theorem browserSessionRunFrom_length (eng : Engine) :
    ∀ (cmds : List Cmd) (n : Nat), (browserSessionRunFrom eng n cmds).length = cmds.length := by
  intro cmds
  induction cmds with
  | nil => intro n; rfl
  | cons c rest ih =>
    intro n
    simp only [browserSessionRunFrom, List.length_cons, ih]

theorem browserSessionRunFrom_getElem (eng : Engine) :
    ∀ (cmds : List Cmd) (n i : Nat) (h : i < cmds.length),
      (browserSessionRunFrom eng n cmds)[i]? =
        some (mkOutcome (n + i) (cmds.get ⟨i, h⟩).type (dispatch eng (cmds.get ⟨i, h⟩)).1) := by
  intro cmds
  induction cmds with
  | nil => intro n i h; simp at h
  | cons c rest ih =>
    intro n i h
    match i with
    | 0 => simp [browserSessionRunFrom]
    | i + 1 =>
      simp only [List.length_cons, Nat.add_lt_add_iff_right] at h
      simp only [browserSessionRunFrom, List.getElem?_cons_succ, List.get]
      rw [ih (n + 1) i h, Nat.add_assoc, Nat.add_comm 1 i]

/-- C3: under the continue-on-failure policy (`browserSession.run`) the
result log has exactly one entry per input command, in strict input order
(the entry at position i carries step number i+1 and the i-th command's
type); the entry of a failing step records `success = false` with the underlying
message of the error, a successful step records `success = true` with its
payload, and in both cases iteration proceeds so later entries exist. -/
theorem continueRun_log (eng : Engine) (cmds : List Cmd) :
    (browserSessionRun eng cmds).length = cmds.length ∧
    ∀ i (h : i < cmds.length),
      (∀ e, (dispatch eng (cmds.get ⟨i, h⟩)).1 = .error e →
        (browserSessionRun eng cmds)[i]? =
          some ⟨i + 1, (cmds.get ⟨i, h⟩).type, false, none, some e⟩) ∧
      (∀ r, (dispatch eng (cmds.get ⟨i, h⟩)).1 = .ok r →
        (browserSessionRun eng cmds)[i]? =
          some ⟨i + 1, (cmds.get ⟨i, h⟩).type, true, r, none⟩) := by
  refine ⟨browserSessionRunFrom_length eng cmds 1, ?_⟩
  intro i h
  constructor
  · intro e he
    rw [browserSessionRun, browserSessionRunFrom_getElem eng cmds 1 i h, he]
    simp [mkOutcome, Nat.add_comm]
  · intro r hr
    rw [browserSessionRun, browserSessionRunFrom_getElem eng cmds 1 i h, hr]
    simp [mkOutcome, Nat.add_comm]

/-- Witness for C3 on a concrete two-command batch against an engine that
throws on every call: both entries exist, in order, the first recording the
failure message, and the run proceeded to the second command. -/
theorem continueRun_log_witness :
    (browserSessionRun demoEngineFail [demoClick, demoBogus]).length = 2 ∧
    (browserSessionRun demoEngineFail [demoClick, demoBogus])[0]? =
      some ⟨1, "click", false, none, some "boom"⟩ ∧
    (browserSessionRun demoEngineFail [demoClick, demoBogus])[1]? =
      some ⟨2, "frobnicate", true, none, none⟩ := by
  have h := continueRun_log demoEngineFail [demoClick, demoBogus]
  refine ⟨h.1, ?_, ?_⟩
  · have h0 := (h.2 0 (by decide)).1 "boom" (by rfl)
    simpa [demoClick] using h0
  · have h1 := (h.2 1 (by decide)).2 none (by rfl)
    simpa [demoBogus] using h1

/-- C9: a guarded handler whose required parameters are absent issues no
engine call and the step is still recorded as a success with an empty
result payload (for example `click` with no selector or `type` with no
value). -/
theorem permissive_noop (eng : Engine) (cmd : Cmd)
    (h : (cmd.type = "click" ∧ cmd.selector = none) ∨
      (cmd.type = "type" ∧ (cmd.selector = none ∨ cmd.value = none)) ∨
      (cmd.type = "fill" ∧ (cmd.selector = none ∨ cmd.value = none)) ∨
      (cmd.type = "hover" ∧ cmd.selector = none) ∨
      (cmd.type = "press_key" ∧ cmd.key = none) ∨
      (cmd.type = "get_text" ∧ cmd.selector = none) ∨
      (cmd.type = "get_attribute" ∧ (cmd.selector = none ∨ cmd.attr = none)) ∨
      (cmd.type = "evaluate" ∧ cmd.script = none) ∨
      (cmd.type = "upload_file" ∧ (cmd.selector = none ∨ cmd.files = none)) ∨
      (cmd.type = "wait_for_text" ∧ cmd.text = none) ∨
      (cmd.type = "wait_for_selector" ∧ cmd.selector = none) ∨
      (cmd.type = "drag" ∧ (cmd.selector = none ∨ cmd.targetSelector = none)) ∨
      (cmd.type = "select_option" ∧ (cmd.selector = none ∨ cmd.value = none)) ∨
      (cmd.type = "check" ∧ cmd.selector = none) ∨
      (cmd.type = "uncheck" ∧ cmd.selector = none) ∨
      (cmd.type = "clear" ∧ cmd.selector = none)) :
    dispatch eng cmd = (.ok none, []) ∧
    browserSessionRun eng [cmd] = [⟨1, cmd.type, true, none, none⟩] := by
  have hd : dispatch eng cmd = (.ok none, []) := by
    rcases h with ⟨ht, hs⟩ | ⟨ht, hs | hs⟩ | ⟨ht, hs | hs⟩ | ⟨ht, hs⟩ | ⟨ht, hs⟩ |
      ⟨ht, hs⟩ | ⟨ht, hs | hs⟩ | ⟨ht, hs⟩ | ⟨ht, hs | hs⟩ | ⟨ht, hs⟩ | ⟨ht, hs⟩ |
      ⟨ht, hs | hs⟩ | ⟨ht, hs | hs⟩ | ⟨ht, hs⟩ | ⟨ht, hs⟩ | ⟨ht, hs⟩ <;>
      simp [dispatch, ht, hs, truthy]
  refine ⟨hd, ?_⟩
  simp [browserSessionRun, browserSessionRunFrom, hd, mkOutcome]

/-- Witness for C9: a `click` with no selector, a `type` with a selector
but no value, and a `fill` with a selector but no value all no-op and are
recorded as successes, even against an engine on which every call would
throw. -/
theorem permissive_noop_witness :
    dispatch demoEngineFail { type := "click" } = (.ok none, []) ∧
    browserSessionRun demoEngineFail [{ type := "click" }] =
      [⟨1, "click", true, none, none⟩] ∧
    dispatch demoEngineFail { type := "type", selector := some "#u" } = (.ok none, []) ∧
    dispatch demoEngineFail { type := "fill", selector := some "#u" } = (.ok none, []) := by
  have h1 := permissive_noop demoEngineFail { type := "click" } (Or.inl ⟨rfl, rfl⟩)
  have h2 := permissive_noop demoEngineFail { type := "type", selector := some "#u" }
    (Or.inr (Or.inl ⟨rfl, Or.inr rfl⟩))
  have h3 := permissive_noop demoEngineFail { type := "fill", selector := some "#u" }
    (Or.inr (Or.inr (Or.inl ⟨rfl, Or.inr rfl⟩)))
  exact ⟨h1.1, h1.2, h2.1, h3.1⟩

/-! ## Theorems: the abort-on-failure runner and unknown commands -/

/-- C6 counterexample: under the continue-on-failure runner an unknown
command type is not fatal, and is not even recorded as a failure: the run
completes and pushes a success entry with no payload (no case of the switch
matches, so nothing is executed and `result` stays undefined), even against
an engine on which any call would throw. -/
theorem unknown_command_counterexample :
    browserSessionRun demoEngineFail [demoBogus, demoNav] =
      [⟨1, "frobnicate", true, none, none⟩,
       ⟨2, "navigate", false, none, some "boom"⟩] := by rfl

/-- C6 amended: an unrecognized command type is a distinguished fatal
`Unknown command type` error only under the abort-on-failure runner
(`executeShortcut.run`), where it throws before any engine call and rejects
the whole run; under the continue-on-failure runner (`browserSession.run`)
an unrecognized type matches no handler, issues no engine call, and is
recorded as a success with an empty payload. -/
theorem unknown_command_policies (eng : Engine) (cmd : Cmd) (rest : List Cmd)
    (hctn : cmd.type ∉ ["navigate", "navigate_back", "click", "type", "fill",
      "press_key", "hover", "select_option", "drag", "wait_for_text",
      "wait_for_timeout", "wait_for_selector", "screenshot", "evaluate",
      "get_text", "get_attribute", "check", "uncheck", "upload_file", "clear",
      "scroll", "reload", "get_url", "get_title"])
    (habt : cmd.type ∉ ["navigate", "click", "fill", "type", "press_key",
      "wait_for_selector", "wait_for_text", "wait_for_timeout", "screenshot",
      "get_text", "get_url", "get_title"]) :
    dispatch eng cmd = (.ok none, []) ∧
    dispatchShortcut eng cmd = (.error ("Unknown command type: " ++ cmd.type), []) ∧
    executeShortcutRun eng (cmd :: rest) = .error ("Unknown command type: " ++ cmd.type) := by
  simp only [List.mem_cons, List.mem_singleton, not_or] at hctn habt
  have hd : dispatch eng cmd = (.ok none, []) := by
    unfold dispatch
    split <;> simp_all
  have hs : dispatchShortcut eng cmd = (.error ("Unknown command type: " ++ cmd.type), []) := by
    clear hd hctn
    unfold dispatchShortcut
    split <;> simp_all
  refine ⟨hd, hs, ?_⟩
  simp only [executeShortcutRun, executeShortcutRunFrom, hs]

/-- Witness for the amended C6 at the concrete unknown type
`frobnicate`. -/
theorem unknown_command_policies_witness :
    dispatch demoEngineOk demoBogus = (.ok none, []) ∧
    dispatchShortcut demoEngineOk demoBogus =
      (.error "Unknown command type: frobnicate", []) ∧
    executeShortcutRun demoEngineOk [demoBogus, demoNav] =
      .error "Unknown command type: frobnicate" := by
  have h := unknown_command_policies demoEngineOk demoBogus [demoNav]
    (by decide) (by decide)
  simpa [demoBogus] using h

/-- C4 counterexample: in the abort-on-failure runner, a two-command batch
whose second (0-based index 1) step fails does not hand the caller a
two-entry result log ending with the failing entry: the accumulated entries
are discarded and the whole run rejects with the underlying error. -/
theorem abort_truncation_counterexample :
    executeShortcutRun demoEngineClickFails [demoNav, demoClick] =
      .error "not found" := by rfl

theorem executeShortcutRunFrom_first_error (eng : Engine) :
    ∀ (cmds : List Cmd) (n : Nat) (i : Nat) (h : i < cmds.length) (e : String),
      (∀ j (hj : j < cmds.length), j < i →
        ∃ p, (dispatchShortcut eng (cmds.get ⟨j, hj⟩)).1 = .ok p) →
      (dispatchShortcut eng (cmds.get ⟨i, h⟩)).1 = .error e →
      executeShortcutRunFrom eng n cmds = .error e := by
  intro cmds
  induction cmds with
  | nil => intro n i h; simp at h
  | cons c rest ih =>
    intro n i h e hok hfail
    match i with
    | 0 =>
      simp only [List.get] at hfail
      simp only [executeShortcutRunFrom, hfail]
    | i + 1 =>
      obtain ⟨p, hp⟩ := hok 0 (by simp) (by omega)
      simp only [List.get] at hp
      simp only [executeShortcutRunFrom, hp]
      simp only [List.length_cons, Nat.add_lt_add_iff_right] at h
      rw [ih (n + 1) i h e ?_ ?_]
      · intro j hj hji
        have := hok (j + 1) (by simpa using Nat.succ_lt_succ hj) (by omega)
        simpa [List.get] using this
      · simpa [List.get] using hfail

/-- C4 amended: under the abort-on-failure policy (`executeShortcut.run`),
if step i (0-based) is the first failing step, iteration stops there and
the whole run rejects with the error of that step; the i preceding successful
entries are accumulated internally but never returned, so the caller
receives the failure rather than a truncated result log of length i+1. -/
theorem abort_stops_at_first_failure (eng : Engine) (cmds : List Cmd)
    (i : Nat) (h : i < cmds.length) (e : String)
    (hok : ∀ j (hj : j < cmds.length), j < i →
      ∃ p, (dispatchShortcut eng (cmds.get ⟨j, hj⟩)).1 = .ok p)
    (hfail : (dispatchShortcut eng (cmds.get ⟨i, h⟩)).1 = .error e) :
    executeShortcutRun eng cmds = .error e :=
  executeShortcutRunFrom_first_error eng cmds 1 i h e hok hfail

/-- Witness for the amended C4: the concrete navigate-then-click batch in
which the click (index 1) is the first failing step rejects with its
error. -/
theorem abort_stops_at_first_failure_witness :
    executeShortcutRun demoEngineClickFails [demoNav, demoClick] =
      .error "not found" := by
  refine abort_stops_at_first_failure demoEngineClickFails [demoNav, demoClick]
    1 (by decide) "not found" ?_ (by rfl)
  intro j hj hji
  have hj0 : j = 0 := by omega
  subst hj0
  exact ⟨.url "https://a.test", by rfl⟩

/-! ## Theorems: selector resolution -/

theorem data_append (s t : String) : (s ++ t).data = s.data ++ t.data := rfl

theorem mk_data (s : String) : String.mk s.data = s := rfl

theorem str_data_ne_nil {s : String} (h : s ≠ "") : s.data ≠ [] := by
  intro hd
  apply h
  cases s with
  | mk d => rw [show d = ([] : List Char) from hd]

theorem takeWhile_eq_self_of_all {p : Char → Bool} :
    ∀ l : List Char, l.all p = true → l.takeWhile p = l := by
  intro l
  induction l with
  | nil => intro; rfl
  | cons c cs ih =>
    intro h
    simp only [List.all_cons, Bool.and_eq_true] at h
    simp [List.takeWhile_cons, h.1, ih h.2]

theorem dropWhile_eq_nil_of_all {p : Char → Bool} :
    ∀ l : List Char, l.all p = true → l.dropWhile p = [] := by
  intro l
  induction l with
  | nil => intro; rfl
  | cons c cs ih =>
    intro h
    simp only [List.all_cons, Bool.and_eq_true] at h
    simp [List.dropWhile_cons, h.1, ih h.2]

theorem takeWhile_append_stop {p : Char → Bool} :
    ∀ (xs : List Char) (y : Char) (ys : List Char), xs.all p = true → p y = false →
      (xs ++ y :: ys).takeWhile p = xs := by
  intro xs
  induction xs with
  | nil => intro y ys _ hy; simp [List.takeWhile_cons, hy]
  | cons x xs ih =>
    intro y ys hall hy
    simp only [List.all_cons, Bool.and_eq_true] at hall
    simp [List.takeWhile_cons, hall.1, ih y ys hall.2 hy]

theorem dropWhile_append_stop {p : Char → Bool} :
    ∀ (xs : List Char) (y : Char) (ys : List Char), xs.all p = true → p y = false →
      (xs ++ y :: ys).dropWhile p = y :: ys := by
  intro xs
  induction xs with
  | nil => intro y ys _ hy; simp [List.dropWhile_cons, hy]
  | cons x xs ih =>
    intro y ys hall hy
    simp only [List.all_cons, Bool.and_eq_true] at hall
    simp [List.dropWhile_cons, hall.1, ih y ys hall.2 hy]

theorem contains_append_eq (c : Char) :
    ∀ l1 l2 : List Char, (l1 ++ l2).contains c = (l1.contains c || l2.contains c) := by
  intro l1 l2
  induction l1 with
  | nil => simp
  | cons x xs ih => simp [List.contains_cons, ih, Bool.or_assoc]

theorem contains_false_of_all {p : Char → Bool} {c : Char} :
    ∀ l : List Char, l.all p = true → p c = false → l.contains c = false := by
  intro l
  induction l with
  | nil => intro _ _; rfl
  | cons x xs ih =>
    intro hall hc
    simp only [List.all_cons, Bool.and_eq_true] at hall
    have hx : (c == x) = false := by
      cases hcx : c == x
      · rfl
      · exact absurd (hall.1) (by rw [← eq_of_beq hcx]; rw [hc]; simp)
    rw [List.contains_cons, hx, ih hall.2 hc]
    rfl

theorem head_of_startsWith (s p : String) (c : Char)
    (hp : jsStartsWith s p = true) (hc : p.data.head? = some c) :
    s.data.head? = some c := by
  unfold jsStartsWith at hp
  obtain ⟨t, ht⟩ := (List.isPrefixOf_iff_prefix.mp hp)
  cases hpd : p.data with
  | nil => rw [hpd] at hc; simp at hc
  | cons d ds =>
    rw [hpd] at hc ht
    have hd : d = c := by simpa using hc
    rw [← ht, hd]
    rfl

theorem jsStartsWith_head_conflict (s p q : String) (cp cq : Char)
    (hp : jsStartsWith s p = true) (hcp : p.data.head? = some cp)
    (hcq : q.data.head? = some cq) (hne : cp ≠ cq) :
    jsStartsWith s q = false := by
  cases hq : jsStartsWith s q
  · rfl
  · have h1 := head_of_startsWith s p cp hp hcp
    have h2 := head_of_startsWith s q cq hq hcq
    rw [h1] at h2
    exact absurd (Option.some.inj h2) hne

theorem roleMatch_none_of_no_role_start {s : String}
    (h : jsStartsWith s "role:" = false) : roleMatch s = none := by
  unfold roleMatch
  simp [h]

/-- The role regex on `role:` + word-only role name. -/
theorem roleMatch_bare (role : String) (hrole : role ≠ "")
    (hw : role.data.all isWordChar = true) :
    roleMatch ("role:" ++ role) = some (role, none) := by
  unfold roleMatch
  have hpre : jsStartsWith ("role:" ++ role) "role:" = true := by
    unfold jsStartsWith
    rw [data_append]
    exact List.isPrefixOf_iff_prefix.mpr (List.prefix_append _ _)
  rw [if_pos hpre]
  have hdrop : ("role:" ++ role).data.drop 5 = role.data := by
    rw [data_append, show (5 : Nat) = ("role:".data).length from rfl, List.drop_left]
  simp only [hdrop, takeWhile_eq_self_of_all role.data hw,
    dropWhile_eq_nil_of_all role.data hw]
  rw [if_neg (by simpa using str_data_ne_nil hrole)]

/-- The role regex on `role:` + word-only role + bracketed name: the greedy
capture takes everything up to the final closing bracket. -/
theorem roleMatch_bracket (role nm : String) (hrole : role ≠ "")
    (hw : role.data.all isWordChar = true) (hnm : nm ≠ "")
    (hdot : nm.data.all jsDotChar = true) :
    roleMatch ("role:" ++ role ++ "[" ++ nm ++ "]") = some (role, some nm) := by
  unfold roleMatch
  have hdata : ("role:" ++ role ++ "[" ++ nm ++ "]").data =
      "role:".data ++ (role.data ++ '[' :: (nm.data ++ [']'])) := by
    simp only [data_append, List.append_assoc]
    rfl
  have hpre : jsStartsWith ("role:" ++ role ++ "[" ++ nm ++ "]") "role:" = true := by
    unfold jsStartsWith
    rw [hdata]
    exact List.isPrefixOf_iff_prefix.mpr (List.prefix_append _ _)
  rw [if_pos hpre]
  have hdrop : ("role:" ++ role ++ "[" ++ nm ++ "]").data.drop 5 =
      role.data ++ '[' :: (nm.data ++ [']']) := by
    rw [hdata, show (5 : Nat) = ("role:".data).length from rfl, List.drop_left]
  have hlast : (nm.data ++ [']']).getLast? = some ']' := by
    simp [List.getLast?_concat]
  have hdroplast : (nm.data ++ [']']).dropLast = nm.data := by
    simp [List.dropLast_concat]
  simp only [hdrop, takeWhile_append_stop role.data '[' (nm.data ++ [']']) hw (by decide),
    dropWhile_append_stop role.data '[' (nm.data ++ [']']) hw (by decide)]
  rw [if_neg (by simpa using str_data_ne_nil hrole)]
  rw [if_pos (by exact ⟨by trivial, hlast, by rw [hdroplast]; exact str_data_ne_nil hnm,
    by rw [hdroplast]; exact hdot⟩)]
  rw [hdroplast]


/-- Reduction of `getLocator` past the structural test when the string
neither begins with a structural character nor contains a combinator. -/
theorem getLocator_not_structural {s : String} (c0 : Char)
    (hh : s.data.head? = some c0)
    (hc : (c0 == '.' || c0 == '#' || c0 == '[') = false)
    (hgt : s.data.contains '>' = false) (hpl : s.data.contains '+' = false) :
    getLocator s = (match roleMatch s with
      | some (r, n) => Strategy.role r n
      | none =>
        if jsStartsWith s "testid:" then Strategy.testId (jsDrop s 7)
        else if jsStartsWith s "placeholder:" then Strategy.placeholder (jsDrop s 12)
        else if jsStartsWith s "label:" then Strategy.label (jsDrop s 6)
        else Strategy.text s) := by
  unfold getLocator
  have hcond : ((match s.data.head? with
      | some c => c == '.' || c == '#' || c == '['
      | none => false) || s.data.contains '>' || s.data.contains '+') = false := by
    rw [hh, hgt, hpl, show (match some c0 with
      | some c => c == '.' || c == '#' || c == '['
      | none => false) = (c0 == '.' || c0 == '#' || c0 == '[') from rfl, hc]
    rfl
  rw [if_neg (by rw [hcond]; exact Bool.false_ne_true)]

/-- C1: the selector resolver is a deterministic first-match-wins pattern
match with the fixed precedence structural CSS, role, test id, placeholder,
label, literal text: a string beginning with a dot, hash or opening bracket
or containing a combinator resolves to the structural CSS strategy verbatim
and is never resolved role-based; a full `role:` form (bare or bracketed)
resolves to a role lookup with the bracketed accessible name; `testid:`,
`placeholder:` and `label:` prefixes resolve to the corresponding lookups
on the remainder; everything else is a literal text lookup; and
`role:button[Submit]` resolves to role `button` with name `Submit`. -/
theorem getLocator_precedence (s : String) :
    ((s.data.head? = some '.' ∨ s.data.head? = some '#' ∨ s.data.head? = some '[' ∨
        s.data.contains '>' = true ∨ s.data.contains '+' = true) →
      getLocator s = .css s) ∧
    (∀ r n, getLocator s = .role r n →
      s.data.head? ≠ some '.' ∧ s.data.head? ≠ some '#' ∧ s.data.head? ≠ some '[') ∧
    (∀ role, s = "role:" ++ role → role ≠ "" → role.data.all isWordChar = true →
      getLocator s = .role role none) ∧
    (∀ role nm, s = "role:" ++ role ++ "[" ++ nm ++ "]" → role ≠ "" →
      role.data.all isWordChar = true → nm ≠ "" → nm.data.all jsDotChar = true →
      nm.data.contains '>' = false → nm.data.contains '+' = false →
      getLocator s = .role role (some nm)) ∧
    (s.data.contains '>' = false → s.data.contains '+' = false →
      jsStartsWith s "testid:" = true → getLocator s = .testId (jsDrop s 7)) ∧
    (s.data.contains '>' = false → s.data.contains '+' = false →
      jsStartsWith s "placeholder:" = true → getLocator s = .placeholder (jsDrop s 12)) ∧
    (s.data.contains '>' = false → s.data.contains '+' = false →
      jsStartsWith s "label:" = true → getLocator s = .label (jsDrop s 6)) ∧
    (s.data.head? ≠ some '.' → s.data.head? ≠ some '#' → s.data.head? ≠ some '[' →
      s.data.contains '>' = false → s.data.contains '+' = false →
      roleMatch s = none → jsStartsWith s "testid:" = false →
      jsStartsWith s "placeholder:" = false → jsStartsWith s "label:" = false →
      getLocator s = .text s) ∧
    getLocator "role:button[Submit]" = .role "button" (some "Submit") := by
  have hcss : (s.data.head? = some '.' ∨ s.data.head? = some '#' ∨
      s.data.head? = some '[' ∨ s.data.contains '>' = true ∨
      s.data.contains '+' = true) → getLocator s = .css s := by
    intro h
    unfold getLocator
    rcases h with h | h | h | h | h
    · rw [if_pos (by rw [h]; simp)]
    · rw [if_pos (by rw [h]; simp)]
    · rw [if_pos (by rw [h]; simp)]
    · rw [if_pos (by rw [h]; simp)]
    · rw [if_pos (by rw [h]; simp)]
  refine ⟨hcss, ?_, ?_, ?_, ?_, ?_, ?_, ?_, ?_⟩
  · -- a role result implies the string did not begin with a structural char
    intro r n h
    refine ⟨?_, ?_, ?_⟩ <;> intro hh <;>
      rw [hcss (by tauto)] at h <;> exact absurd h (by simp)
  · -- bare role form
    intro role hs hrole hw
    subst hs
    have hgt : ("role:" ++ role).data.contains '>' = false := by
      rw [data_append, contains_append_eq]
      rw [contains_false_of_all role.data hw (by decide),
        show ("role:".data).contains '>' = false from rfl]
      rfl
    have hpl : ("role:" ++ role).data.contains '+' = false := by
      rw [data_append, contains_append_eq]
      rw [contains_false_of_all role.data hw (by decide),
        show ("role:".data).contains '+' = false from rfl]
      rfl
    have hh : ("role:" ++ role).data.head? = some 'r' := by
      rw [data_append]; rfl
    rw [getLocator_not_structural 'r' hh (by decide) hgt hpl,
      roleMatch_bare role hrole hw]
  · -- bracketed role form
    intro role nm hs hrole hw hnm hdot hnmgt hnmpl
    subst hs
    have hdata : ("role:" ++ role ++ "[" ++ nm ++ "]").data =
        "role:".data ++ (role.data ++ '[' :: (nm.data ++ [']'])) := by
      simp only [data_append, List.append_assoc]
      rfl
    have hgt : ("role:" ++ role ++ "[" ++ nm ++ "]").data.contains '>' = false := by
      rw [hdata, contains_append_eq, contains_append_eq,
        show ("role:".data).contains '>' = false from rfl,
        contains_false_of_all role.data hw (by decide),
        show ('[' :: (nm.data ++ [']'])).contains '>' =
          ((('>' : Char) == '[') || (nm.data ++ [']']).contains '>') from
          List.contains_cons,
        contains_append_eq, hnmgt,
        show (([']'] : List Char)).contains '>' = false from rfl,
        show (('>' : Char) == '[') = false from rfl]
      rfl
    have hpl : ("role:" ++ role ++ "[" ++ nm ++ "]").data.contains '+' = false := by
      rw [hdata, contains_append_eq, contains_append_eq,
        show ("role:".data).contains '+' = false from rfl,
        contains_false_of_all role.data hw (by decide),
        show ('[' :: (nm.data ++ [']'])).contains '+' =
          ((('+' : Char) == '[') || (nm.data ++ [']']).contains '+') from
          List.contains_cons,
        contains_append_eq, hnmpl,
        show (([']'] : List Char)).contains '+' = false from rfl,
        show (('+' : Char) == '[') = false from rfl]
      rfl
    have hh : ("role:" ++ role ++ "[" ++ nm ++ "]").data.head? = some 'r' := by
      rw [hdata]; rfl
    rw [getLocator_not_structural 'r' hh (by decide) hgt hpl,
      roleMatch_bracket role nm hrole hw hnm hdot]
  · -- testid prefix
    intro hgt hpl hts
    have hh : s.data.head? = some 't' :=
      head_of_startsWith s "testid:" 't' hts rfl
    have hrole : jsStartsWith s "role:" = false :=
      jsStartsWith_head_conflict s "testid:" "role:" 't' 'r' hts rfl rfl (by decide)
    rw [getLocator_not_structural 't' hh (by decide) hgt hpl,
      roleMatch_none_of_no_role_start hrole]
    simp only [hts, if_true]
  · -- placeholder prefix
    intro hgt hpl hps
    have hh : s.data.head? = some 'p' :=
      head_of_startsWith s "placeholder:" 'p' hps rfl
    have hrole : jsStartsWith s "role:" = false :=
      jsStartsWith_head_conflict s "placeholder:" "role:" 'p' 'r' hps rfl rfl (by decide)
    have hts : jsStartsWith s "testid:" = false :=
      jsStartsWith_head_conflict s "placeholder:" "testid:" 'p' 't' hps rfl rfl (by decide)
    rw [getLocator_not_structural 'p' hh (by decide) hgt hpl,
      roleMatch_none_of_no_role_start hrole]
    simp only [hts, hps, if_true, if_false, Bool.false_eq_true]
  · -- label prefix
    intro hgt hpl hlb
    have hh : s.data.head? = some 'l' :=
      head_of_startsWith s "label:" 'l' hlb rfl
    have hrole : jsStartsWith s "role:" = false :=
      jsStartsWith_head_conflict s "label:" "role:" 'l' 'r' hlb rfl rfl (by decide)
    have hts : jsStartsWith s "testid:" = false :=
      jsStartsWith_head_conflict s "label:" "testid:" 'l' 't' hlb rfl rfl (by decide)
    have hps : jsStartsWith s "placeholder:" = false :=
      jsStartsWith_head_conflict s "label:" "placeholder:" 'l' 'p' hlb rfl rfl (by decide)
    rw [getLocator_not_structural 'l' hh (by decide) hgt hpl,
      roleMatch_none_of_no_role_start hrole]
    simp only [hts, hps, hlb, if_true, if_false, Bool.false_eq_true]
  · -- literal text fallback
    intro hd hh hb hgt hpl hrm hts hps hlb
    cases hhead : s.data.head? with
    | none =>
      -- the empty string: not structural, no prefix matches
      have hnil : s.data = [] := by
        cases hsd : s.data
        · rfl
        · rw [hsd] at hhead; simp at hhead
      unfold getLocator
      rw [if_neg (by rw [hhead, hgt, hpl]; simp)]
      rw [hrm]
      simp only [hts, hps, hlb, if_false, Bool.false_eq_true]
    | some c =>
      have h1 : (c == '.') = false := by
        cases hc : c == '.'
        · rfl
        · exact absurd (by rw [eq_of_beq hc] at hhead; exact hhead) hd
      have h2 : (c == '#') = false := by
        cases hc : c == '#'
        · rfl
        · exact absurd (by rw [eq_of_beq hc] at hhead; exact hhead) hh
      have h3 : (c == '[') = false := by
        cases hc : c == '['
        · rfl
        · exact absurd (by rw [eq_of_beq hc] at hhead; exact hhead) hb
      rw [getLocator_not_structural c hhead (by rw [h1, h2, h3]; rfl) hgt hpl, hrm]
      simp only [hts, hps, hlb, if_false, Bool.false_eq_true]
  · -- concrete scenario
    rfl

/-- Witness for C1 at concrete selectors: a hash selector resolves
structurally, a testid selector to a test-id lookup, the bracketed role
scenario to a role lookup with accessible name, and a bare role form to a
role lookup without one. -/
theorem getLocator_precedence_witness :
    getLocator "#go" = .css "#go" ∧
    getLocator "testid:login-btn" = .testId (jsDrop "testid:login-btn" 7) ∧
    getLocator "role:button[Submit]" = .role "button" (some "Submit") ∧
    getLocator "role:link" = .role "link" none := by
  have h1 := getLocator_precedence "#go"
  have h2 := getLocator_precedence "testid:login-btn"
  have h3 := getLocator_precedence "role:link"
  refine ⟨h1.1 (Or.inr (Or.inl (by rfl))), ?_, h1.2.2.2.2.2.2.2.2, ?_⟩
  · exact h2.2.2.2.2.1 (by rfl) (by rfl) (by rfl)
  · exact h3.2.2.1 "link" (by rfl) (by decide) (by decide)

/-! ## Theorems: secret interpolation -/

theorem except_map_ok {α β : Type} (f : α → β) (a : α) :
    (f <$> (.ok a : Except String α)) = .ok (f a) := rfl

theorem except_map_error {α β : Type} (f : α → β) (e : String) :
    (f <$> (.error e : Except String α)) = .error e := rfl

theorem except_bind_ok {α β : Type} (f : α → Except String β) (a : α) :
    ((.ok a : Except String α) >>= f) = f a := rfl

theorem except_bind_error {α β : Type} (f : α → Except String β) (e : String) :
    ((.error e : Except String α) >>= f) = .error e := rfl

theorem all_ne_of_contains_false {c : Char} :
    ∀ l : List Char, l.contains c = false → l.all (fun x => x ≠ c) = true := by
  intro l
  induction l with
  | nil => intro; rfl
  | cons x xs ih =>
    intro h
    rw [List.contains_cons] at h
    have hx : (c == x) = false := by
      cases hcx : c == x
      · rfl
      · rw [hcx] at h; simp at h
    have hxs : xs.contains c = false := by
      cases hcx : xs.contains c
      · rfl
      · rw [hcx] at h; simp at h
    have hxc : x ≠ c := fun hh => by rw [hh] at hx; simp at hx
    rw [List.all_cons, show decide (x ≠ c) = true by simp [hxc], ih hxs]
    rfl

/-- A placeholder at the head of the scan position is matched exactly:
the captured name is the brace-free run, the rest follows the two closing
braces. -/
theorem tryPlaceholder_exact (name tail : List Char) (h1 : name ≠ [])
    (h2 : name.all (fun x => x ≠ '}') = true) :
    tryPlaceholder ('$' :: '{' :: '{' :: (name ++ '}' :: '}' :: tail)) =
      some (name, tail) := by
  unfold tryPlaceholder
  simp only [takeWhile_append_stop name '}' ('}' :: tail) h2 (by decide),
    dropWhile_append_stop name '}' ('}' :: tail) h2 (by decide)]
  simp [h1]

/-- Scanning from a placeholder hit resolves or fails on the trimmed
captured name. -/
theorem scanChars_hit (env : VarStore) (name tail : List Char) (h1 : name ≠ [])
    (h2 : name.all (fun x => x ≠ '}') = true) :
    scanChars env ('$' :: '{' :: '{' :: (name ++ '}' :: '}' :: tail)) =
      match List.lookup (jsTrim (String.mk name)) env with
      | some v => (fun t => v.data ++ t) <$> scanChars env tail
      | none => .error (errMsg (jsTrim (String.mk name))) :=
  scanChars_match env (tryPlaceholder_exact name tail h1 h2)

/-- The scan copies a dollar-free prefix verbatim. -/
theorem scanChars_copy_lead (env : VarStore) :
    ∀ pre rest : List Char, pre.contains '$' = false →
      scanChars env (pre ++ rest) = (fun t => pre ++ t) <$> scanChars env rest := by
  intro pre
  induction pre with
  | nil =>
    intro rest h
    cases hsc : scanChars env rest
    · rw [List.nil_append, hsc, except_map_error]
    · rw [List.nil_append, hsc, except_map_ok]
      rfl
  | cons c cs ih =>
    intro rest h
    rw [List.contains_cons] at h
    have hc : ('$' == c) = false := by
      cases hx : ('$' == c)
      · rfl
      · rw [hx] at h; simp at h
    have hcs : cs.contains '$' = false := by
      cases hx : cs.contains '$'
      · rfl
      · rw [hx] at h; simp at h
    have hne : c ≠ '$' := fun hh => by rw [hh] at hc; simp at hc
    rw [List.cons_append, scanChars_copy env (tryPlaceholder_of_ne (cs ++ rest) hne),
      ih rest hcs]
    cases hsc : scanChars env rest
    · simp only [except_map_error]
    · simp only [except_map_ok]
      rfl

/-- Every scan failure is the missing-variable error for a name that is
genuinely absent from the store. -/
theorem scanChars_error_form (env : VarStore) :
    ∀ l e, scanChars env l = .error e →
      ∃ n, e = errMsg n ∧ List.lookup n env = none := by
  suffices H : ∀ k (l : List Char) e, l.length ≤ k → scanChars env l = .error e →
      ∃ n, e = errMsg n ∧ List.lookup n env = none by
    intro l e h
    exact H l.length l e le_rfl h
  intro k
  induction k with
  | zero =>
    intro l e hl h
    match l with
    | [] => rw [scanChars_nil] at h; cases h
  | succ k ih =>
    intro l e hl h
    match l with
    | [] => rw [scanChars_nil] at h; cases h
    | c :: cs =>
      simp only [List.length_cons] at hl
      cases htp : tryPlaceholder (c :: cs) with
      | none =>
        rw [scanChars_copy env htp] at h
        cases hsc : scanChars env cs with
        | ok t => rw [hsc, except_map_ok] at h; cases h
        | error e2 =>
          rw [hsc, except_map_error] at h
          cases h
          exact ih cs _ (by omega) hsc
      | some pr =>
        obtain ⟨inner, rest⟩ := pr
        have hlen := tryPlaceholder_consumes htp
        simp only [List.length_cons] at hlen
        rw [scanChars_match env htp] at h
        cases hlk : List.lookup (jsTrim (String.mk inner)) env with
        | some v =>
          simp only [hlk] at h
          cases hsc : scanChars env rest with
          | ok t => rw [hsc, except_map_ok] at h; cases h
          | error e2 =>
            rw [hsc, except_map_error] at h
            cases h
            exact ih rest _ (by omega) hsc
        | none =>
          simp only [hlk] at h
          cases h
          exact ⟨jsTrim (String.mk inner), rfl, hlk⟩

theorem interpolateSecrets_error_form (env : VarStore) (s : String) (e : String)
    (h : interpolateSecrets env s = .error e) :
    ∃ n, e = errMsg n ∧ List.lookup n env = none := by
  unfold interpolateSecrets at h
  cases hsc : scanChars env s.data with
  | ok t => rw [hsc, except_map_ok] at h; cases h
  | error e2 =>
    rw [hsc, except_map_error] at h
    cases h
    exact scanChars_error_form env s.data _ hsc

mutual
theorem interpObj_error_form (env : VarStore) :
    ∀ v e, interpolateSecretsInObject env v = .error e →
      ∃ n, e = errMsg n ∧ List.lookup n env = none
  | .str s, e, h => by
    unfold interpolateSecretsInObject at h
    cases hsc : interpolateSecrets env s with
    | ok t => rw [hsc, except_map_ok] at h; cases h
    | error e2 =>
      rw [hsc, except_map_error] at h
      cases h
      exact interpolateSecrets_error_form env s _ hsc
  | .num n, e, h => by unfold interpolateSecretsInObject at h; cases h
  | .bool b, e, h => by unfold interpolateSecretsInObject at h; cases h
  | .null, e, h => by unfold interpolateSecretsInObject at h; cases h
  | .arr xs, e, h => by
    unfold interpolateSecretsInObject at h
    cases ha : interpArr env xs with
    | ok ys => rw [ha, except_map_ok] at h; cases h
    | error e2 =>
      rw [ha, except_map_error] at h
      cases h
      exact interpArr_error_form env xs _ ha
  | .obj fs, e, h => by
    unfold interpolateSecretsInObject at h
    cases ha : interpFields env fs with
    | ok gs => rw [ha, except_map_ok] at h; cases h
    | error e2 =>
      rw [ha, except_map_error] at h
      cases h
      exact interpFields_error_form env fs _ ha

theorem interpArr_error_form (env : VarStore) :
    ∀ xs e, interpArr env xs = .error e →
      ∃ n, e = errMsg n ∧ List.lookup n env = none
  | .nil, e, h => by unfold interpArr at h; cases h
  | .cons v vs, e, h => by
    unfold interpArr at h
    cases hv : interpolateSecretsInObject env v with
    | error e2 =>
      rw [hv, except_bind_error] at h
      cases h
      exact interpObj_error_form env v _ hv
    | ok v2 =>
      rw [hv, except_bind_ok] at h
      cases hr : interpArr env vs with
      | error e2 =>
        rw [hr, except_bind_error] at h
        cases h
        exact interpArr_error_form env vs _ hr
      | ok vs2 => rw [hr, except_bind_ok] at h; cases h

theorem interpFields_error_form (env : VarStore) :
    ∀ fs e, interpFields env fs = .error e →
      ∃ n, e = errMsg n ∧ List.lookup n env = none
  | .nil, e, h => by unfold interpFields at h; cases h
  | .cons k v vs, e, h => by
    unfold interpFields at h
    cases hv : interpolateSecretsInObject env v with
    | error e2 =>
      rw [hv, except_bind_error] at h
      cases h
      exact interpObj_error_form env v _ hv
    | ok v2 =>
      rw [hv, except_bind_ok] at h
      cases hr : interpFields env vs with
      | error e2 =>
        rw [hr, except_bind_error] at h
        cases h
        exact interpFields_error_form env vs _ hr
      | ok vs2 => rw [hr, except_bind_ok] at h; cases h
end

mutual
theorem interpObj_sameStructure (env : VarStore) :
    ∀ v w, interpolateSecretsInObject env v = .ok w → sameStructure v w = true
  | .str s, w, h => by
    unfold interpolateSecretsInObject at h
    cases hsc : interpolateSecrets env s with
    | error e => rw [hsc, except_map_error] at h; cases h
    | ok t =>
      rw [hsc, except_map_ok] at h
      cases h
      rfl
  | .num n, w, h => by
    unfold interpolateSecretsInObject at h
    cases h
    simp [sameStructure]
  | .bool b, w, h => by
    unfold interpolateSecretsInObject at h
    cases h
    simp [sameStructure]
  | .null, w, h => by
    unfold interpolateSecretsInObject at h
    cases h
    rfl
  | .arr xs, w, h => by
    unfold interpolateSecretsInObject at h
    cases ha : interpArr env xs with
    | error e => rw [ha, except_map_error] at h; cases h
    | ok ys =>
      rw [ha, except_map_ok] at h
      cases h
      exact interpArr_sameStructure env xs ys ha
  | .obj fs, w, h => by
    unfold interpolateSecretsInObject at h
    cases ha : interpFields env fs with
    | error e => rw [ha, except_map_error] at h; cases h
    | ok gs =>
      rw [ha, except_map_ok] at h
      cases h
      exact interpFields_sameStructure env fs gs ha

theorem interpArr_sameStructure (env : VarStore) :
    ∀ xs ys, interpArr env xs = .ok ys → sameStructureArr xs ys = true
  | .nil, ys, h => by unfold interpArr at h; cases h; rfl
  | .cons v vs, ys, h => by
    unfold interpArr at h
    cases hv : interpolateSecretsInObject env v with
    | error e => rw [hv, except_bind_error] at h; cases h
    | ok v2 =>
      rw [hv, except_bind_ok] at h
      cases hr : interpArr env vs with
      | error e => rw [hr, except_bind_error] at h; cases h
      | ok vs2 =>
        rw [hr, except_bind_ok] at h
        cases h
        simp [sameStructureArr, interpObj_sameStructure env v v2 hv,
          interpArr_sameStructure env vs vs2 hr]

theorem interpFields_sameStructure (env : VarStore) :
    ∀ fs gs, interpFields env fs = .ok gs → sameStructureFields fs gs = true
  | .nil, gs, h => by unfold interpFields at h; cases h; rfl
  | .cons k v vs, gs, h => by
    unfold interpFields at h
    cases hv : interpolateSecretsInObject env v with
    | error e => rw [hv, except_bind_error] at h; cases h
    | ok v2 =>
      rw [hv, except_bind_ok] at h
      cases hr : interpFields env vs with
      | error e => rw [hr, except_bind_error] at h; cases h
      | ok vs2 =>
        rw [hr, except_bind_ok] at h
        cases h
        simp [sameStructureFields, interpObj_sameStructure env v v2 hv,
          interpFields_sameStructure env vs vs2 hr]
end

/-- An object whose first field fails interpolation fails as a whole: no
partially substituted structure is produced. -/
theorem interpObj_first_field_error (env : VarStore) (k s : String)
    (rest : FieldList) (e : String) (h : interpolateSecrets env s = .error e) :
    interpolateSecretsInObject env (.obj (.cons k (.str s) rest)) = .error e := by
  have hstr : interpolateSecretsInObject env (.str s) = .error e := by
    unfold interpolateSecretsInObject
    rw [h, except_map_error]
  unfold interpolateSecretsInObject interpFields
  rw [hstr, except_bind_error, except_map_error]

/-- C7: interpolation with all placeholders resolvable returns a
structurally identical copy: any successful result has the same constructor
shape as the input everywhere (equal non-string leaves, equal array lengths
and orders, equal object key lists), non-string leaves pass through
unchanged, strings are processed by `interpolateSecrets`, and the concrete
nested scenario interpolates as specified. -/
theorem interpObj_structural_copy (env : VarStore) :
    (∀ v w, interpolateSecretsInObject env v = .ok w → sameStructure v w = true) ∧
    (∀ n : Int, interpolateSecretsInObject env (.num n) = .ok (.num n)) ∧
    (∀ b, interpolateSecretsInObject env (.bool b) = .ok (.bool b)) ∧
    interpolateSecretsInObject env .null = .ok .null ∧
    (∀ s w, interpolateSecretsInObject env (.str s) = .ok w →
      ∃ t, interpolateSecrets env s = .ok t ∧ w = .str t) ∧
    interpolateSecretsInObject [("HOST", "h")]
        (.obj (.cons "url" (.str "$\x7b\x7bHOST\x7d\x7d/x")
          (.cons "body" (.obj (.cons "k" (.str "$\x7b\x7bHOST\x7d\x7d") .nil)) .nil))) =
      .ok (.obj (.cons "url" (.str "h/x")
          (.cons "body" (.obj (.cons "k" (.str "h") .nil)) .nil))) := by
  refine ⟨interpObj_sameStructure env, fun n => rfl, fun b => rfl, rfl, ?_, by rfl⟩
  intro s w h
  unfold interpolateSecretsInObject at h
  cases hsc : interpolateSecrets env s with
  | error e => rw [hsc, except_map_error] at h; cases h
  | ok t =>
    rw [hsc, except_map_ok] at h
    cases h
    exact ⟨t, rfl, rfl⟩

/-- Witness for C7: the concrete scenario is structurally identical to its
input, and a non-string leaf passes through. -/
theorem interpObj_structural_copy_witness :
    sameStructure
      (.obj (.cons "url" (.str "$\x7b\x7bHOST\x7d\x7d/x")
        (.cons "body" (.obj (.cons "k" (.str "$\x7b\x7bHOST\x7d\x7d") .nil)) .nil)))
      (.obj (.cons "url" (.str "h/x")
        (.cons "body" (.obj (.cons "k" (.str "h") .nil)) .nil))) = true ∧
    interpolateSecretsInObject [("HOST", "h")] (.num 7) = .ok (.num 7) := by
  have h := interpObj_structural_copy [("HOST", "h")]
  exact ⟨h.1 _ _ h.2.2.2.2.2, h.2.1 7⟩

/-- C8 counterexample: for the store entry named `A}B` (a name containing a
closing brace) with stored value `v`, interpolating the string consisting
only of that placeholder does not yield the stored value: the placeholder
regex cannot match a name containing a closing brace, so the input is
returned unchanged.  The round-trip claim quantified over every store entry
is therefore false. -/
theorem roundtrip_counterexample :
    interpolateSecrets [("A\x7dB", "v")] ("$\x7b\x7b" ++ "A\x7dB" ++ "\x7d\x7d") =
      .ok "$\x7b\x7bA\x7dB\x7d\x7d" ∧
    interpolateSecrets [("A\x7dB", "v")] ("$\x7b\x7b" ++ "A\x7dB" ++ "\x7d\x7d") ≠ .ok "v" := by
  refine ⟨by rfl, ?_⟩
  intro h
  rw [show interpolateSecrets [("A\x7dB", "v")] ("$\x7b\x7b" ++ "A\x7dB" ++ "\x7d\x7d") =
    .ok "$\x7b\x7bA\x7dB\x7d\x7d" from by rfl] at h
  exact absurd (Except.ok.inj h) (by decide)

/-- C8 amended: for every store entry whose name is nonempty, contains no
closing brace, and is unchanged by trimming, interpolating the string
consisting only of that placeholder yields exactly the stored value, for
any stored value (special characters included). -/
theorem roundtrip_amended (env : VarStore) (name v : String)
    (h1 : name ≠ "") (h2 : name.data.contains '}' = false)
    (h3 : jsTrim name = name) (h4 : List.lookup name env = some v) :
    interpolateSecrets env ("$\x7b\x7b" ++ name ++ "\x7d\x7d") = .ok v := by
  have hall : name.data.all (fun x => x ≠ '}') = true :=
    all_ne_of_contains_false name.data h2
  have hdata : ("$\x7b\x7b" ++ name ++ "\x7d\x7d").data =
      '$' :: '{' :: '{' :: (name.data ++ '}' :: '}' :: []) := by
    simp only [data_append, List.append_assoc]
    rfl
  unfold interpolateSecrets
  rw [hdata, scanChars_hit env name.data [] (str_data_ne_nil h1) hall, mk_data, h3, h4]
  rw [show (match some v with
    | some v2 => (fun t => v2.data ++ t) <$> scanChars env []
    | none => Except.error (errMsg name)) =
      ((fun t => v.data ++ t) <$> scanChars env []) from rfl]
  rw [scanChars_nil, except_map_ok, except_map_ok]
  rw [show v.data ++ [] = v.data from List.append_nil v.data, mk_data]

/-- Witness for the amended C8: a value with spaces, punctuation and a
brace round-trips exactly through its placeholder. -/
theorem roundtrip_amended_witness :
    interpolateSecrets [("TOKEN", "p@ss w0rd\x7d")] ("$\x7b\x7b" ++ "TOKEN" ++ "\x7d\x7d") =
      .ok "p@ss w0rd\x7d" :=
  roundtrip_amended [("TOKEN", "p@ss w0rd\x7d")] "TOKEN" "p@ss w0rd\x7d"
    (by decide) (by rfl) (by rfl) (by rfl)

/-- C2: a string value containing a placeholder whose trimmed name has no
store entry makes secret interpolation fail with the missing-variable error
naming that variable; an input structure containing such a string fails as
a whole with that same error and yields no partially substituted value; the
surrounding action run then returns the error before the action body runs,
with the page trace unchanged (the result does not depend on the action
body at all); and every interpolation failure is such a missing-variable
error for a genuinely absent name. -/
theorem missing_variable_aborts (env : VarStore) (pre name post k : String)
    (rest : FieldList) (st : SessState) (actName : String) (fresh : Nat)
    (runEff : Session → Value → List String → Except String Unit × List String)
    (tr : List String)
    (hpre : pre.data.contains '$' = false)
    (h1 : name ≠ "") (h2 : name.data.contains '}' = false)
    (hmiss : List.lookup (jsTrim name) env = none) :
    interpolateSecrets env (pre ++ "$\x7b\x7b" ++ name ++ "\x7d\x7d" ++ post)
      = .error (errMsg (jsTrim name)) ∧
    interpolateSecretsInObject env
        (.obj (.cons k (.str (pre ++ "$\x7b\x7b" ++ name ++ "\x7d\x7d" ++ post)) rest))
      = .error (errMsg (jsTrim name)) ∧
    runAction env st actName fresh
        (.obj (.cons k (.str (pre ++ "$\x7b\x7b" ++ name ++ "\x7d\x7d" ++ post)) rest)) runEff tr
      = (.error (errMsg (jsTrim name)), (acquireSession st fresh).state, tr) ∧
    (∀ (v : Value) (e : String), interpolateSecretsInObject env v = .error e →
      ∃ n2, e = errMsg n2 ∧ List.lookup n2 env = none) := by
  have hall : name.data.all (fun x => x ≠ '}') = true :=
    all_ne_of_contains_false name.data h2
  have hdata : (pre ++ "$\x7b\x7b" ++ name ++ "\x7d\x7d" ++ post).data =
      pre.data ++ ('$' :: '{' :: '{' :: (name.data ++ '}' :: '}' :: post.data)) := by
    simp only [data_append, List.append_assoc]
    rfl
  have hstr : interpolateSecrets env (pre ++ "$\x7b\x7b" ++ name ++ "\x7d\x7d" ++ post)
      = .error (errMsg (jsTrim name)) := by
    unfold interpolateSecrets
    rw [hdata, scanChars_copy_lead env pre.data _ hpre,
      scanChars_hit env name.data post.data (str_data_ne_nil h1) hall, mk_data, hmiss]
    rfl
  have hobj : interpolateSecretsInObject env
      (.obj (.cons k (.str (pre ++ "$\x7b\x7b" ++ name ++ "\x7d\x7d" ++ post)) rest))
      = .error (errMsg (jsTrim name)) :=
    interpObj_first_field_error env k _ rest _ hstr
  refine ⟨hstr, hobj, ?_, interpObj_error_form env⟩
  unfold runAction
  rw [hobj]

/-- Witness for C2: interpolating a structure that references the undefined
variable `PASS` fails with the error naming `PASS`, and the action run
returns that error with the page trace untouched. -/
theorem missing_variable_aborts_witness :
    interpolateSecrets [("HOST", "h")] ("u" ++ "$\x7b\x7b" ++ "PASS" ++ "\x7d\x7d" ++ "x")
      = .error (errMsg (jsTrim "PASS")) ∧
    runAction [("HOST", "h")] ⟨none, none, none⟩ "browser-session" 0
        (.obj (.cons "v" (.str ("u" ++ "$\x7b\x7b" ++ "PASS" ++ "\x7d\x7d" ++ "x")) .nil))
        (fun _ _ tr => (.ok (), tr)) []
      = (.error (errMsg (jsTrim "PASS")),
         (acquireSession ⟨none, none, none⟩ 0).state, []) := by
  have h := missing_variable_aborts [("HOST", "h")] "u" "PASS" "x" "v" .nil
    ⟨none, none, none⟩ "browser-session" 0 (fun _ _ tr => (.ok (), tr)) []
    (by rfl) (by decide) (by rfl) (by rfl)
  exact ⟨h.1, h.2.2.1⟩

end Playwrightium
